import Mathlib

/-!
Shallow embedding of the Markdown-export core of ichik-editor
(src/ichik-editor-1.0.0.js): the text sanitizer `escapeHtml`
(lines 126-133), the URL validator `enforceHttps` (lines 106-120) and the
recursive HTML-tree-to-Markdown serializer `parseToMd` (lines 166-201),
together with proofs settling the claims about them.
-/

namespace Ichik

/-! ### Sanitizer: `escapeHtml` -/

/-- One global single-character replacement: the JS
`str.replace(/c/g, rep)` for a one-character pattern `c`, modelled on the
character list of the string. -/
def replaceAll (p : Char) (r : List Char) : List Char → List Char
  | [] => []
  | c :: cs => if c = p then r ++ replaceAll p r cs else c :: replaceAll p r cs

/-- The sanitizer `escapeHtml` of the source: a falsy (empty) input returns
the empty string, otherwise the five chained global replacements run in
source order, ampersand first. -/
def escapeHtml (text : String) : String :=
  if text = "" then ""
  else (replaceAll '\x27' "&#039;".toList
         (replaceAll '"' "&quot;".toList
           (replaceAll '>' "&gt;".toList
             (replaceAll '<' "&lt;".toList
               (replaceAll '&' "&amp;".toList text.toList))))).asString

/-- Per-character escaping map: each of the five special characters becomes
its entity, every other character is untouched. -/
def escapeChar (c : Char) : List Char :=
  if c = '&' then "&amp;".toList
  else if c = '<' then "&lt;".toList
  else if c = '>' then "&gt;".toList
  else if c = '"' then "&quot;".toList
  else if c = '\x27' then "&#039;".toList
  else [c]

/-- Character-by-character restatement of the sanitizer, following the
wording of the spec. -/
def escapeSpec (s : String) : String := ((s.toList.map escapeChar).flatten).asString

/-- The five replacement chains of `escapeHtml` on a character list. -/
def escapeRun (l : List Char) : List Char :=
  replaceAll '\x27' "&#039;".toList
    (replaceAll '"' "&quot;".toList
      (replaceAll '>' "&gt;".toList
        (replaceAll '<' "&lt;".toList
          (replaceAll '&' "&amp;".toList l))))

/-- The five characters the sanitizer escapes. -/
def fiveSpecials : List Char := ['&', '<', '>', '"', '\x27']

/-! ### URL validator: `enforceHttps` -/

/-- ECMAScript whitespace, the character set removed by
`String.prototype.trim`. -/
def isJsWhitespace (c : Char) : Bool :=
  c.val = 9 || c.val = 10 || c.val = 11 || c.val = 12 || c.val = 13 ||
  c.val = 32 || c.val = 160 || c.val = 5760 ||
  (8192 ≤ c.val && c.val ≤ 8202) || c.val = 8232 || c.val = 8233 ||
  c.val = 8239 || c.val = 8287 || c.val = 12288 || c.val = 65279

/-- JS `String.prototype.trim`. -/
def jsTrim (s : String) : String :=
  (((s.toList.dropWhile isJsWhitespace).reverse.dropWhile isJsWhitespace).reverse).asString

/-- JS `String.prototype.toLowerCase`, restricted to ASCII lowering; the two
agree on every character relevant to the `https://` and `http://` checks of
the validator. -/
def jsToLower (s : String) : String := (s.toList.map Char.toLower).asString

/-- JS `String.prototype.startsWith`. -/
def jsStartsWith (s pre : String) : Bool := pre.toList.isPrefixOf s.toList

/-- Characters of the class `[a-zA-Z0-9-.]` of the source regex. -/
def isSchemeChar (c : Char) : Bool := c.isAlpha || c.isDigit || c = '-' || c = '.'

/-- The test of the source regex `^[a-zA-Z0-9-.]+://`. Neither `:` nor `/`
belongs to the character class, so the regex matches exactly when the leading
run of class characters is nonempty and is immediately followed by `://`. -/
def schemePatternTest (s : String) : Bool :=
  let run := s.toList.takeWhile isSchemeChar
  !run.isEmpty && "://".toList.isPrefixOf (s.toList.drop run.length)

/-- The two alert reasons the validator can surface. -/
inductive UrlReason where
  | httpsRequired
  | invalidProtocol
deriving DecidableEq

/-- Result of the validator: an accepted (possibly normalized) URL, or a
rejection (`null` in the source) carrying the alert reason surfaced, `none`
when no alert fires. -/
inductive UrlResult where
  | accepted : String → UrlResult
  | rejected : Option UrlReason → UrlResult
deriving DecidableEq

/-- The URL validator `enforceHttps` of the source. -/
def enforceHttps (inputUrl : String) : UrlResult :=
  if inputUrl = "" then .rejected none
  else
    let url := jsTrim inputUrl
    if jsStartsWith (jsToLower url) "https://" then .accepted url
    else if jsStartsWith (jsToLower url) "http://" then .rejected (some .httpsRequired)
    else if schemePatternTest url then .rejected (some .invalidProtocol)
    else .accepted ("https://" ++ url)

/-! ### Serializer: `parseToMd` -/

/-- A content node: a DOM text node, or an element with its tag name
(uppercase, as DOM `tagName`), attribute list and child nodes. -/
inductive ContentNode where
  | text : String → ContentNode
  | element : String → List (String × String) → List ContentNode → ContentNode

/-- Whether a node is an element, hence a member of its parent DOM
`children` collection. -/
def isElementNode : ContentNode → Bool
  | .text _ => false
  | .element _ _ _ => true

/-- DOM `getAttribute`: `none` models the `null` returned for an absent
attribute. -/
def getAttribute (attrs : List (String × String)) (name : String) : Option String :=
  (attrs.find? (fun a => a.1 == name)).map (fun a => a.2)

/-- JS template-literal interpolation of a possibly `null` string. -/
def jsTemplateStr (o : Option String) : String := o.getD "null"

/-- Context a child node receives about its parent element: the parent
`tagName` and the child position among the parent element children (the DOM
`parent.children` collection). The source computes this position with
`Array.from(parent.children).indexOf(node)`, a lookup by node identity,
which is exactly this positional index. -/
structure ParentCtx where
  tag : String
  elemIndex : Nat

/-- The `IMG` case of the switch (source lines 192-198): `alt` falls back to
the empty string (`|| ''`), a truthy (non-null, non-empty) `width` selects
the raw `<img>` tag, otherwise standard Markdown image syntax is used. -/
def imgRender (attrs : List (String × String)) : String :=
  let alt := (getAttribute attrs "alt").getD ""
  let src := jsTemplateStr (getAttribute attrs "src")
  match getAttribute attrs "width" with
  | some w =>
      if w = "" then "\n![" ++ alt ++ "](" ++ src ++ ")\n"
      else "\n<img src=\"" ++ src ++ "\" alt=\"" ++ alt ++ "\" width=\"" ++ w ++ "\">\n"
  | none => "\n![" ++ alt ++ "](" ++ src ++ ")\n"

/-- The infallible cases of the switch of `parseToMd` over `node.tagName`,
in source order; the `LI` case is the only one that can fail and is handled
by `renderTag`. -/
def renderTagStr (tag : String) (attrs : List (String × String))
    (content : String) : String :=
  if tag = "B" ∨ tag = "STRONG" then "**" ++ content ++ "**"
  else if tag = "I" ∨ tag = "EM" then "*" ++ content ++ "*"
  else if tag = "H1" then "# " ++ content ++ "\n\n"
  else if tag = "H2" then "## " ++ content ++ "\n\n"
  else if tag = "H3" then "### " ++ content ++ "\n\n"
  else if tag = "H4" then "#### " ++ content ++ "\n\n"
  else if tag = "H5" then "##### " ++ content ++ "\n\n"
  else if tag = "H6" then "###### " ++ content ++ "\n\n"
  else if tag = "DIV" ∨ tag = "P" then
    (if jsTrim content = "" then "" else content ++ "\n\n")
  else if tag = "BR" then "\n"
  else if tag = "UL" ∨ tag = "OL" then content ++ "\n"
  else if tag = "HR" then "\n---\n\n"
  else if tag = "A" then
    "[" ++ content ++ "](" ++ jsTemplateStr (getAttribute attrs "href") ++ ")"
  else if tag = "IMG" then imgRender attrs
  else content

/-- The switch of `parseToMd` over `node.tagName`. The cases of the switch
test `tagName` against pairwise-distinct literals, so the `LI` case — the
only one that dereferences `node.parentElement` and hence the only one that
can fail — can be tested first without changing the semantics. With no
parent element (`ctx = none`) the `LI` case fails (`none`), modelling the
thrown TypeError. -/
def renderTag (ctx : Option ParentCtx) (tag : String) (attrs : List (String × String))
    (content : String) : Option String :=
  if tag = "LI" then
    match ctx with
    | none => none
    | some p =>
        some ((if p.tag = "OL" then toString (p.elemIndex + 1) ++ ". " else "- ") ++
          content ++ "\n")
  else some (renderTagStr tag attrs content)

mutual

/-- Recursive serializer `parseToMd` of the source: a text node yields its
escaped text; an element concatenates its serialized children
(`node.childNodes.forEach(child => content += parseToMd(child))`) and then
applies the tag rendering of the switch. -/
def parseToMd (ctx : Option ParentCtx) : ContentNode → Option String
  | .text s => some (escapeHtml s)
  | .element tag attrs children =>
      (serializeChildren tag 0 children).bind (renderTag ctx tag attrs)

/-- Serialization of a child list, threading the position the next element
child will occupy in the parent `children` collection. -/
def serializeChildren (t : String) (k : Nat) : List ContentNode → Option String
  | [] => some ""
  | c :: rest =>
      (parseToMd (some ⟨t, k⟩) c).bind (fun s =>
        (serializeChildren t (if isElementNode c then k + 1 else k) rest).map
          (fun r => s ++ r))

end

/-- Serialization of a root node: a root has no parent element, so the
context is empty. -/
def serialize (n : ContentNode) : Option String := parseToMd none n

/-- Expected Markdown of a run of text-only list items under an ordered
list, the first one sitting at element position `k` of its parent. -/
def numberItems (k : Nat) : List String → String
  | [] => ""
  | t :: ts => toString (k + 1) ++ ". " ++ escapeHtml t ++ "\n" ++ numberItems (k + 1) ts

/-- A list item holding a single text node. -/
def mkListItem (t : String) : ContentNode := .element "LI" [] [.text t]

/-- Tag name of a node, `none` for a text node. -/
def nodeTag : ContentNode → Option String
  | .text _ => none
  | .element t _ _ => some t

/-! ### Helper lemmas: strings and character lists -/

theorem toList_asString (l : List Char) : (List.asString l).toList = l := rfl

theorem toList_append (a b : String) : (a ++ b).toList = a.toList ++ b.toList := by
  cases a; cases b; rfl

theorem asString_append (l m : List Char) :
    (l ++ m).asString = l.asString ++ m.asString := rfl

theorem asString_inj {l m : List Char} (h : l.asString = m.asString) : l = m := by
  have h2 := congrArg String.toList h
  simpa [toList_asString] using h2

theorem isPrefixOf_append_self (l r : List Char) : l.isPrefixOf (l ++ r) = true := by
  rw [List.isPrefixOf_iff_prefix]
  exact List.prefix_append l r

/-! ### Helper lemmas: the sanitizer -/

theorem replaceAll_append (p : Char) (r l₁ l₂ : List Char) :
    replaceAll p r (l₁ ++ l₂) = replaceAll p r l₁ ++ replaceAll p r l₂ := by
  induction l₁ with
  | nil => rfl
  | cons c cs ih => by_cases h : c = p <;> simp [replaceAll, h, ih]

theorem escapeHtml_eq_run (s : String) : escapeHtml s = (escapeRun s.toList).asString := by
  by_cases h : s = ""
  · subst h; rfl
  · simp [escapeHtml, escapeRun, h]

theorem escapeRun_append (l₁ l₂ : List Char) :
    escapeRun (l₁ ++ l₂) = escapeRun l₁ ++ escapeRun l₂ := by
  simp [escapeRun, replaceAll_append]

theorem escapeRun_single (c : Char) : escapeRun [c] = escapeChar c := by
  by_cases h1 : c = '&'
  · subst h1; rfl
  · by_cases h2 : c = '<'
    · subst h2; simp [escapeRun, replaceAll, escapeChar, h1]
    · by_cases h3 : c = '>'
      · subst h3; simp [escapeRun, replaceAll, escapeChar, h1, h2]
      · by_cases h4 : c = '"'
        · subst h4; simp [escapeRun, replaceAll, escapeChar, h1, h2, h3]
        · by_cases h5 : c = '\x27'
          · subst h5; simp [escapeRun, replaceAll, escapeChar, h1, h2, h3, h4]
          · simp [escapeRun, replaceAll, escapeChar, h1, h2, h3, h4, h5]

theorem escapeRun_eq_spec (l : List Char) : escapeRun l = (l.map escapeChar).flatten := by
  induction l with
  | nil => rfl
  | cons c cs ih =>
      have hc : c :: cs = [c] ++ cs := rfl
      rw [hc, escapeRun_append, escapeRun_single, ih]
      simp

theorem escapeHtml_eq_spec (s : String) : escapeHtml s = escapeSpec s := by
  rw [escapeHtml_eq_run, escapeRun_eq_spec]; rfl

theorem escapeChar_length_pos (c : Char) : 0 < (escapeChar c).length := by
  unfold escapeChar
  split_ifs <;> simp

theorem length_le_escape (l : List Char) :
    l.length ≤ ((l.map escapeChar).flatten).length := by
  induction l with
  | nil => simp
  | cons c cs ih =>
      simp only [List.map_cons, List.flatten_cons, List.length_append, List.length_cons]
      have := escapeChar_length_pos c
      omega

theorem length_lt_escape {l : List Char} (h : '&' ∈ l) :
    l.length < ((l.map escapeChar).flatten).length := by
  induction l with
  | nil => cases h
  | cons c cs ih =>
      simp only [List.map_cons, List.flatten_cons, List.length_append, List.length_cons]
      rcases List.mem_cons.mp h with rfl | hm
      · have h5 : (escapeChar '&').length = 5 := by decide
        have := length_le_escape cs
        omega
      · have := ih hm
        have := escapeChar_length_pos c
        omega

theorem amp_mem_escapeChar {c : Char} (h : c ∈ fiveSpecials) : '&' ∈ escapeChar c := by
  fin_cases h <;> decide

/-! ### Helper lemmas: the serializer -/

theorem renderTag_some_ctx_isSome (p : ParentCtx) (tag : String)
    (attrs : List (String × String)) (content : String) :
    (renderTag (some p) tag attrs content).isSome = true := by
  unfold renderTag
  split <;> rfl

theorem renderTag_no_ctx_isSome {tag : String} (h : tag ≠ "LI")
    (attrs : List (String × String)) (content : String) :
    (renderTag none tag attrs content).isSome = true := by
  simp [renderTag, h]

mutual

theorem parseToMd_isSome (p : ParentCtx) (n : ContentNode) :
    (parseToMd (some p) n).isSome = true := by
  cases n with
  | text s => simp [parseToMd]
  | element tag attrs children =>
      have h1 := serializeChildren_isSome tag 0 children
      simp only [parseToMd]
      rcases hc : serializeChildren tag 0 children with _ | content
      · rw [hc] at h1; simp at h1
      · simpa using renderTag_some_ctx_isSome p tag attrs content

theorem serializeChildren_isSome (t : String) (k : Nat) (cs : List ContentNode) :
    (serializeChildren t k cs).isSome = true := by
  cases cs with
  | nil => simp [serializeChildren]
  | cons c rest =>
      have h1 := parseToMd_isSome ⟨t, k⟩ c
      have h2 := serializeChildren_isSome t (if isElementNode c then k + 1 else k) rest
      simp only [serializeChildren]
      rcases hp : parseToMd (some ⟨t, k⟩) c with _ | s
      · rw [hp] at h1; simp at h1
      · rcases hr : serializeChildren t (if isElementNode c then k + 1 else k) rest with _ | r
        · rw [hr] at h2; simp at h2
        · simp

end

theorem serializeChildren_eq_some (t : String) (k : Nat) (cs : List ContentNode) :
    ∃ content, serializeChildren t k cs = some content := by
  have h := serializeChildren_isSome t k cs
  rcases hc : serializeChildren t k cs with _ | content
  · rw [hc] at h; simp at h
  · exact ⟨content, rfl⟩

theorem serialize_element (tag : String) (attrs : List (String × String))
    (children : List ContentNode) :
    serialize (.element tag attrs children) =
      (serializeChildren tag 0 children).bind (renderTag none tag attrs) := rfl

theorem serialize_li_root (attrs : List (String × String)) (children : List ContentNode) :
    serialize (.element "LI" attrs children) = none := by
  rw [serialize_element]
  rcases serializeChildren_eq_some "LI" 0 children with ⟨content, hc⟩
  rw [hc]
  simp [renderTag]

theorem serialize_not_li_isSome {n : ContentNode} (h : nodeTag n ≠ some "LI") :
    (serialize n).isSome = true := by
  cases n with
  | text s => simp [serialize, parseToMd]
  | element tag attrs children =>
      have ht : tag ≠ "LI" := by
        intro he
        exact h (by simp [nodeTag, he])
      rw [serialize_element]
      rcases serializeChildren_eq_some tag 0 children with ⟨content, hc⟩
      rw [hc]
      simpa using renderTag_no_ctx_isSome ht attrs content

theorem parseToMd_li (p : ParentCtx) (attrs : List (String × String))
    (children : List ContentNode) :
    parseToMd (some p) (.element "LI" attrs children) =
      (serializeChildren "LI" 0 children).map (fun content =>
        (if p.tag = "OL" then toString (p.elemIndex + 1) ++ ". " else "- ") ++
          content ++ "\n") := by
  simp only [parseToMd]
  rcases serializeChildren_eq_some "LI" 0 children with ⟨content, hc⟩
  rw [hc]
  simp [renderTag]

theorem serializeChildren_ol_items (k : Nat) (ts : List String) :
    serializeChildren "OL" k (ts.map mkListItem) = some (numberItems k ts) := by
  induction ts generalizing k with
  | nil => rfl
  | cons t ts ih =>
      have hli : parseToMd (some ⟨"OL", k⟩) (mkListItem t) =
          some (toString (k + 1) ++ ". " ++ escapeHtml t ++ "\n") := by
        simp [mkListItem, parseToMd, serializeChildren, renderTag]
      simp only [List.map_cons, serializeChildren, hli]
      have he : isElementNode (mkListItem t) = true := rfl
      rw [he]
      simp only [if_true, ih (k + 1), Option.bind_some, Option.map_some]
      simp [numberItems, String.append_assoc]

/-! ### Helper lemmas: the validator -/

theorem jsToLower_append (a b : String) :
    jsToLower (a ++ b) = jsToLower a ++ jsToLower b := by
  simp [jsToLower, toList_append, asString_append]

theorem startsWith_https_prepend (url : String) :
    jsStartsWith (jsToLower ("https://" ++ url)) "https://" = true := by
  rw [jsToLower_append]
  unfold jsStartsWith
  rw [toList_append]
  have h : jsToLower "https://" = "https://" := by decide
  rw [h]
  exact isPrefixOf_append_self _ _

theorem accepted_starts_https {s t : String} (h : enforceHttps s = .accepted t) :
    jsStartsWith (jsToLower t) "https://" = true := by
  simp only [enforceHttps] at h
  split_ifs at h with h0 h1 h2 h3
  · cases h; exact h1
  · cases h; exact startsWith_https_prepend _

/-! ### Claims -/

/-- C1, counterexample: `enforceHttps "javascript:alert(1)"` is NOT rejected
with reason `invalidProtocol` — the scheme regex demands `://`, so the input
falls through to the scheme-less branch and is accepted with `https://`
prepended. -/
theorem claim_C1_counterexample :
    enforceHttps "javascript:alert(1)" = .accepted "https://javascript:alert(1)" ∧
    enforceHttps "javascript:alert(1)" ≠ .rejected (some .invalidProtocol) := by
  decide

/-- C1, amended: a trimmed input whose leading nonempty run of scheme
characters (letters, digits, hyphen, dot) is followed by `://`, and which
does not carry the `http://` or `https://` prefix, is rejected with reason
`invalidProtocol` (so `javascript://…`, `data://…`, `vbscript://…` are
rejected); a scheme written without the double slash, such as
`javascript:alert(1)`, is instead accepted with `https://` prepended. -/
theorem claim_C1 :
    (∀ s : String, s ≠ "" →
      jsStartsWith (jsToLower (jsTrim s)) "https://" = false →
      jsStartsWith (jsToLower (jsTrim s)) "http://" = false →
      schemePatternTest (jsTrim s) = true →
      enforceHttps s = .rejected (some .invalidProtocol)) ∧
    enforceHttps "javascript://alert(1)" = .rejected (some .invalidProtocol) ∧
    enforceHttps "data://text" = .rejected (some .invalidProtocol) ∧
    enforceHttps "vbscript://x" = .rejected (some .invalidProtocol) ∧
    enforceHttps "javascript:alert(1)" = .accepted "https://javascript:alert(1)" := by
  refine ⟨?_, by decide, by decide, by decide, by decide⟩
  intro s h0 h1 h2 h3
  simp [enforceHttps, h0, h1, h2, h3]

/-- C1, witness for the amended claim at a concrete input. -/
theorem claim_C1_witness :
    enforceHttps "ftp://example.com" = .rejected (some .invalidProtocol) :=
  claim_C1.1 "ftp://example.com" (by decide) (by decide) (by decide) (by decide)

/-- C2, counterexample: a whitespace-only (but non-empty) input is NOT
rejected — it is trimmed to the empty string and accepted as `https://`. -/
theorem claim_C2_counterexample : enforceHttps " " = .accepted "https://" := by
  decide

/-- C2, amended: `enforceHttps ""` is rejected silently (no reason); only
the exactly-empty input is rejected, while a non-empty whitespace-only input
is trimmed to empty and accepted as `https://`. -/
theorem claim_C2 :
    enforceHttps "" = .rejected none ∧
    (∀ s : String, s ≠ "" → jsTrim s = "" → enforceHttps s = .accepted "https://") := by
  refine ⟨by decide, ?_⟩
  intro s h0 h1
  unfold enforceHttps
  rw [if_neg h0, h1]
  decide

/-- C2, witness for the amended claim at a concrete input. -/
theorem claim_C2_witness : enforceHttps "\t" = .accepted "https://" :=
  claim_C2.2 "\t" (by decide) (by decide)

/-- C3, counterexample: a `width` attribute that is present but empty does
NOT trigger the raw-tag escape — the truthiness test `if (width)` treats the
empty string like an absent attribute and the standard Markdown image form
is emitted. -/
theorem claim_C3_counterexample :
    getAttribute [("src", "https://x/y.png"), ("alt", "logo"), ("width", "")] "width"
      = some "" ∧
    serialize (.element "IMG" [("src", "https://x/y.png"), ("alt", "logo"), ("width", "")] [])
      = some "\n![logo](https://x/y.png)\n" := by
  decide

/-- C3, amended: `serialize` of an Image element emits the raw-tag escape
form exactly when a `width` attribute with a non-empty value is present, and
the standard Markdown form otherwise; no other attribute (in particular not
`alt`) and no child influences the choice. -/
theorem claim_C3 :
    (∀ (attrs : List (String × String)) (children : List ContentNode),
      serialize (.element "IMG" attrs children) =
        (serializeChildren "IMG" 0 children).map (fun _ =>
          match getAttribute attrs "width" with
          | some w =>
              if w = "" then
                "\n![" ++ (getAttribute attrs "alt").getD "" ++ "](" ++
                  jsTemplateStr (getAttribute attrs "src") ++ ")\n"
              else
                "\n<img src=\"" ++ jsTemplateStr (getAttribute attrs "src") ++
                  "\" alt=\"" ++ (getAttribute attrs "alt").getD "" ++
                  "\" width=\"" ++ w ++ "\">\n"
          | none =>
              "\n![" ++ (getAttribute attrs "alt").getD "" ++ "](" ++
                jsTemplateStr (getAttribute attrs "src") ++ ")\n")) ∧
    serialize (.element "IMG" [("src", "https://x/y.png"), ("alt", "logo"), ("width", "200px")] [])
      = some "\n<img src=\"https://x/y.png\" alt=\"logo\" width=\"200px\">\n" := by
  refine ⟨?_, by decide⟩
  intro attrs children
  rw [serialize_element]
  rcases serializeChildren_eq_some "IMG" 0 children with ⟨content, hc⟩
  rw [hc]
  simp [renderTag, renderTagStr, imgRender]

/-- C4: `serialize` of an ordered list of list items numbers the items by
their 1-based position among the parent element children at serialization
time, a list item under any non-OL parent gets the `- ` prefix, and a list
item renders as prefix, content, newline; in particular the two-item example
of the spec serializes to `1. a\n2. b\n\n`. -/
theorem claim_C4 :
    serialize (.element "OL" [] [mkListItem "a", mkListItem "b"]) = some "1. a\n2. b\n\n" ∧
    (∀ ts : List String,
      serialize (.element "OL" [] (ts.map mkListItem)) = some (numberItems 0 ts ++ "\n")) ∧
    (∀ (p : ParentCtx) (attrs : List (String × String)) (children : List ContentNode),
      parseToMd (some p) (.element "LI" attrs children) =
        (serializeChildren "LI" 0 children).map (fun content =>
          (if p.tag = "OL" then toString (p.elemIndex + 1) ++ ". " else "- ") ++
            content ++ "\n")) := by
  refine ⟨by decide, ?_, parseToMd_li⟩
  intro ts
  rw [serialize_element, serializeChildren_ol_items 0 ts]
  simp [renderTag, renderTagStr]

/-- C5: every accepted result of `enforceHttps` starts case-insensitively
with `https://`; an input whose trimmed form already carries that prefix is
accepted as the trimmed input itself, a scheme-less input is accepted with
`https://` prepended, and `enforceHttps "example.com"` returns
`https://example.com`. -/
theorem claim_C5 :
    (∀ s t : String, enforceHttps s = .accepted t →
      jsStartsWith (jsToLower t) "https://" = true) ∧
    (∀ s : String, s ≠ "" →
      jsStartsWith (jsToLower (jsTrim s)) "https://" = true →
      enforceHttps s = .accepted (jsTrim s)) ∧
    (∀ s : String, s ≠ "" →
      jsStartsWith (jsToLower (jsTrim s)) "https://" = false →
      jsStartsWith (jsToLower (jsTrim s)) "http://" = false →
      schemePatternTest (jsTrim s) = false →
      enforceHttps s = .accepted ("https://" ++ jsTrim s)) ∧
    enforceHttps "example.com" = .accepted "https://example.com" := by
  refine ⟨fun s t h => accepted_starts_https h, ?_, ?_, by decide⟩
  · intro s h0 h1
    simp [enforceHttps, h0, h1]
  · intro s h0 h1 h2 h3
    simp [enforceHttps, h0, h1, h2, h3]

/-- C5, witness at concrete inputs. -/
theorem claim_C5_witness :
    jsStartsWith (jsToLower "https://example.com") "https://" = true ∧
    enforceHttps " https://x " = .accepted "https://x" ∧
    enforceHttps "example.com" = .accepted ("https://" ++ jsTrim "example.com") :=
  ⟨claim_C5.1 "example.com" "https://example.com" (by decide),
   claim_C5.2.1 " https://x " (by decide) (by decide),
   claim_C5.2.2.1 "example.com" (by decide) (by decide) (by decide) (by decide)⟩

/-- C6: `escapeHtml` is total (in particular it maps the empty string to
itself) and equals the character-by-character map that turns each of the
five special characters into its entity and leaves every other character
unchanged — so the ampersand replacement, applied first, is not re-escaped
by the later replacements. -/
theorem claim_C6 : escapeHtml "" = "" ∧ ∀ s : String, escapeHtml s = escapeSpec s :=
  ⟨rfl, escapeHtml_eq_spec⟩

/-- C7: `serialize` of a Paragraph or Div element yields the empty string
when the concatenation of its serialized children trims to blank, and the
content followed by a blank line otherwise; in particular the
`<script>`-text example of the spec serializes to `&lt;script&gt;\n\n`. -/
theorem claim_C7 :
    (∀ (attrs : List (String × String)) (children : List ContentNode),
      serialize (.element "P" attrs children) =
        (serializeChildren "P" 0 children).map (fun content =>
          if jsTrim content = "" then "" else content ++ "\n\n")) ∧
    (∀ (attrs : List (String × String)) (children : List ContentNode),
      serialize (.element "DIV" attrs children) =
        (serializeChildren "DIV" 0 children).map (fun content =>
          if jsTrim content = "" then "" else content ++ "\n\n")) ∧
    serialize (.element "P" [] [.text "<script>"]) = some "&lt;script&gt;\n\n" := by
  refine ⟨?_, ?_, by decide⟩ <;>
    · intro attrs children
      rw [serialize_element]
      rcases serializeChildren_eq_some _ 0 children with ⟨content, hc⟩
      rw [hc]
      simp [renderTag, renderTagStr]

/-- C8: `escapeHtml` is not idempotent — for every string containing one of
the five escaped characters, a second application further escapes the
ampersands of the entities produced by the first one. -/
theorem claim_C8 : ∀ t : String,
    (t.toList.any (fun c => fiveSpecials.contains c)) = true →
    escapeHtml (escapeHtml t) ≠ escapeHtml t := by
  intro t ht heq
  rcases List.any_eq_true.mp ht with ⟨c0, hc0, hc0f⟩
  have hc0mem : c0 ∈ fiveSpecials := by simpa using hc0f
  have hampl1 : '&' ∈ (t.toList.map escapeChar).flatten :=
    List.mem_flatten.mpr ⟨escapeChar c0, List.mem_map_of_mem _ hc0, amp_mem_escapeChar hc0mem⟩
  have h1 : escapeHtml t = ((t.toList.map escapeChar).flatten).asString :=
    (escapeHtml_eq_spec t).trans rfl
  have h2 : escapeHtml (escapeHtml t) =
      ((((t.toList.map escapeChar).flatten).map escapeChar).flatten).asString := by
    rw [h1, escapeHtml_eq_spec]
    unfold escapeSpec
    rw [toList_asString]
  have hlen : (escapeHtml (escapeHtml t)).toList.length = (escapeHtml t).toList.length := by
    rw [heq]
  rw [h2, h1] at hlen
  simp only [toList_asString] at hlen
  have hlt := length_lt_escape hampl1
  omega

/-- C8, witness: the single ampersand separates the two sides. -/
theorem claim_C8_witness : escapeHtml (escapeHtml "&") ≠ escapeHtml "&" :=
  claim_C8 "&" (by decide)

/-- C9: the output of `escapeHtml` never contains the markup-significant
characters `<`, `>`, `"`, apostrophe: the five specials become entities made
of harmless characters, everything else passes through unchanged. -/
theorem claim_C9 : ∀ t : String,
    ((escapeHtml t).toList.all
      (fun c => !(c = '<' || c = '>' || c = '"' || c = '\x27'))) = true := by
  intro t
  rw [escapeHtml_eq_spec]
  unfold escapeSpec
  rw [toList_asString, List.all_eq_true]
  intro c hc
  rcases List.mem_flatten.mp hc with ⟨l, hl, hcl⟩
  rcases List.mem_map.mp hl with ⟨c0, _, rfl⟩
  revert hcl
  unfold escapeChar
  split_ifs with g1 g2 g3 g4 g5 <;> intro hcl
  · fin_cases hcl <;> decide
  · fin_cases hcl <;> decide
  · fin_cases hcl <;> decide
  · fin_cases hcl <;> decide
  · fin_cases hcl <;> decide
  · simp only [List.mem_singleton] at hcl
    subst hcl
    simp [g2, g3, g4, g5]

/-- C10: `serialize` applied to a root list item fails (`none`) because the
`LI` case dereferences the missing parent element, and for every root that
is not a list item `serialize` returns a string — in this tree model every
non-root node has a parent element, so the precondition that every list item
has one is exactly that the root is not a list item. -/
theorem claim_C10 :
    (∀ (attrs : List (String × String)) (children : List ContentNode),
      serialize (.element "LI" attrs children) = none) ∧
    (∀ n : ContentNode, nodeTag n ≠ some "LI" → (serialize n).isSome = true) :=
  ⟨serialize_li_root, fun _ h => serialize_not_li_isSome h⟩

/-- C10, witness: an empty paragraph root serializes successfully. -/
theorem claim_C10_witness : (serialize (.element "P" [] [])).isSome = true :=
  claim_C10.2 (.element "P" [] []) (by decide)

end Ichik
